import Mathlib

/-!
Verification of the portfolio valuation, mutation and persistence logic of a
browser-based investment-tracking dashboard.

The embedding mirrors `src/components/Portfolio.tsx` and
`src/components/SearchBar.tsx`:
* JavaScript numbers are modelled as exact rationals (`ℚ`); the spec states the
  arithmetic as exact formulas over the reals.
* `parseFloat` of a form field is modelled by an `Option ℚ` argument
  (`none` = `NaN`).
* `Date.now()` is modelled by an explicit natural-number timestamp argument;
  the generated identifier is its decimal string, as in
  `Date.now().toString()`.
* The `localStorage` round trip is modelled at the JSON-value level: a `Json`
  tree stands for the value produced by `JSON.stringify`/`JSON.parse`.
-/

/-- Asset class, `'stock' | 'crypto'` in the source. -/
inductive AssetType where
  | stock
  | crypto
deriving DecidableEq, Repr

/-- The `PortfolioItem` interface of `Portfolio.tsx`. -/
structure PortfolioItem where
  id : String
  symbol : String
  name : String
  type : AssetType
  quantity : ℚ
  purchasePrice : ℚ
  currentPrice : ℚ
deriving DecidableEq, Repr

/-- The `SearchResult` interface (`price?` is optional). -/
structure SearchResult where
  symbol : String
  name : String
  type : AssetType
  price : Option ℚ := none
deriving DecidableEq, Repr

/-! ## Valuation engine (`calculateGainLoss` and the aggregate formulas) -/

/-- Per-line market value, `item.currentPrice * item.quantity`
(first line of `calculateGainLoss`). -/
def lineValue (item : PortfolioItem) : ℚ :=
  item.currentPrice * item.quantity

/-- Per-line cost basis, `item.purchasePrice * item.quantity`
(second line of `calculateGainLoss`). -/
def lineCost (item : PortfolioItem) : ℚ :=
  item.purchasePrice * item.quantity

/-- `calculateGainLoss` from `Portfolio.tsx`: returns the pair
`(gainLoss, percentage)` where `gainLoss = totalValue - totalCost` and
`percentage = (gainLoss / totalCost) * 100`. -/
def calculateGainLoss (item : PortfolioItem) : ℚ × ℚ :=
  let totalValue := item.currentPrice * item.quantity
  let totalCost := item.purchasePrice * item.quantity
  let gainLoss := totalValue - totalCost
  let percentage := gainLoss / totalCost * 100
  (gainLoss, percentage)

/-- `getTotalPortfolioValue`: `portfolio.reduce((t, item) => t + item.currentPrice * item.quantity, 0)`. -/
def getTotalPortfolioValue (portfolio : List PortfolioItem) : ℚ :=
  portfolio.foldl (fun total item => total + item.currentPrice * item.quantity) 0

/-- `getTotalInvested`: `portfolio.reduce((t, item) => t + item.purchasePrice * item.quantity, 0)`. -/
def getTotalInvested (portfolio : List PortfolioItem) : ℚ :=
  portfolio.foldl (fun total item => total + item.purchasePrice * item.quantity) 0

/-- `totalGainLoss = totalValue - totalInvested`. -/
def totalGainLoss (portfolio : List PortfolioItem) : ℚ :=
  getTotalPortfolioValue portfolio - getTotalInvested portfolio

/-- `totalPercentage = totalInvested > 0 ? (totalGainLoss / totalInvested) * 100 : 0`. -/
def totalPercentage (portfolio : List PortfolioItem) : ℚ :=
  if 0 < getTotalInvested portfolio then
    totalGainLoss portfolio / getTotalInvested portfolio * 100
  else 0

/-- Rounding a rational to two decimal places (used to state the spec's
"23.95 (2 d.p.)" example). -/
def roundTwoPlaces (x : ℚ) : ℚ :=
  ((round (100 * x) : ℤ) : ℚ) / 100

/-- The example holding of spec §8:
`{symbol: "AAPL", quantity: 10, purchasePrice: 150, currentPrice: 185.92}`. -/
def aaplExample : PortfolioItem :=
  { id := "1"
    symbol := "AAPL"
    name := "Apple Inc."
    type := .stock
    quantity := 10
    purchasePrice := 150
    currentPrice := 185.92 }

/-- `foldl` of a running sum equals the sum over the mapped list. -/
theorem foldl_add_eq_sum (f : PortfolioItem → ℚ) (l : List PortfolioItem) (a : ℚ) :
    l.foldl (fun total item => total + f item) a = a + (l.map f).sum := by
  induction l generalizing a with
  | nil => simp
  | cons x xs ih =>
      simp only [List.foldl_cons, List.map_cons, List.sum_cons]
      rw [ih]
      ring

example : lineValue aaplExample = 1859.2 := by norm_num [lineValue, aaplExample]
example : lineCost aaplExample = 1500 := by norm_num [lineCost, aaplExample]
example : (calculateGainLoss aaplExample).1 = 359.2 := by
  norm_num [calculateGainLoss, aaplExample]
example : roundTwoPlaces (calculateGainLoss aaplExample).2 = 23.95 := by
  norm_num [calculateGainLoss, aaplExample, roundTwoPlaces, round_eq]

/-- C1: for every holding with positive cost, the per-line valuation satisfies
`lineValue = currentPrice * quantity`, `lineCost = purchasePrice * quantity`,
`lineGainLoss = lineValue - lineCost` and
`linePercent = 100 * lineGainLoss / lineCost` exactly; and on the AAPL example
(quantity 10, purchase 150, current 185.92) the results are 1859.20, 1500.00,
359.20 and a percentage that rounds to 23.95 at two decimal places. -/
theorem c1_per_line_valuation :
    (∀ item : PortfolioItem, 0 < lineCost item →
      lineValue item = item.currentPrice * item.quantity ∧
      lineCost item = item.purchasePrice * item.quantity ∧
      (calculateGainLoss item).1 = lineValue item - lineCost item ∧
      (calculateGainLoss item).2 = 100 * (calculateGainLoss item).1 / lineCost item) ∧
    lineValue aaplExample = 1859.2 ∧
    lineCost aaplExample = 1500 ∧
    (calculateGainLoss aaplExample).1 = 359.2 ∧
    roundTwoPlaces (calculateGainLoss aaplExample).2 = 23.95 := by
  refine ⟨fun item _ => ⟨rfl, rfl, rfl, ?_⟩, ?_, ?_, ?_, ?_⟩
  · simp only [calculateGainLoss, lineValue, lineCost]
    ring
  · norm_num [lineValue, aaplExample]
  · norm_num [lineCost, aaplExample]
  · norm_num [calculateGainLoss, aaplExample]
  · norm_num [calculateGainLoss, aaplExample, roundTwoPlaces, round_eq]

/-- Witness for C1 at the AAPL example holding. -/
theorem c1_per_line_valuation_witness :
    0 < lineCost aaplExample ∧
    (calculateGainLoss aaplExample).2 =
      100 * (calculateGainLoss aaplExample).1 / lineCost aaplExample :=
  ⟨by norm_num [lineCost, aaplExample],
   (c1_per_line_valuation.1 aaplExample (by norm_num [lineCost, aaplExample])).2.2.2⟩

/-- C2: the aggregate total value is the sum of `currentPrice * quantity` over
all holdings, the aggregate cost is the sum of `purchasePrice * quantity`, the
aggregate gain/loss is their difference, the aggregate percent equals
`100 * totalGainLoss / totalInvested` whenever the invested total is positive,
and for the empty collection the percent is exactly 0 (the division is guarded
by `totalInvested > 0`). -/
theorem c2_aggregate_valuation :
    (∀ portfolio : List PortfolioItem,
      getTotalPortfolioValue portfolio =
        (portfolio.map fun item => item.currentPrice * item.quantity).sum ∧
      getTotalInvested portfolio =
        (portfolio.map fun item => item.purchasePrice * item.quantity).sum ∧
      totalGainLoss portfolio =
        getTotalPortfolioValue portfolio - getTotalInvested portfolio ∧
      (0 < getTotalInvested portfolio →
        totalPercentage portfolio =
          100 * totalGainLoss portfolio / getTotalInvested portfolio)) ∧
    totalPercentage [] = 0 := by
  refine ⟨fun portfolio => ⟨?_, ?_, rfl, fun h => ?_⟩, ?_⟩
  · rw [getTotalPortfolioValue, foldl_add_eq_sum, zero_add]
  · rw [getTotalInvested, foldl_add_eq_sum, zero_add]
  · rw [totalPercentage, if_pos h]
    ring
  · norm_num [totalPercentage, getTotalInvested]

/-- Witness for C2 on a one-element collection with positive invested total. -/
theorem c2_aggregate_valuation_witness :
    0 < getTotalInvested [aaplExample] ∧
    totalPercentage [aaplExample] =
      100 * totalGainLoss [aaplExample] / getTotalInvested [aaplExample] :=
  ⟨by norm_num [getTotalInvested, aaplExample],
   (c2_aggregate_valuation.1 [aaplExample]).2.2.2
     (by norm_num [getTotalInvested, aaplExample])⟩

/-! ## Price lookup and portfolio mutations -/

/-- The `mockPrices` table of `getCurrentPrice`, looked up by symbol. The
JavaScript indexing `mockPrices[symbol]` yields `undefined` (here `none`) on a
missing key. -/
def mockPrices (symbol : String) : Option ℚ :=
  if symbol = "AAPL" then some 185.92
  else if symbol = "GOOGL" then some 138.21
  else if symbol = "MSFT" then some 378.85
  else if symbol = "TSLA" then some 248.50
  else if symbol = "AMZN" then some 145.86
  else if symbol = "NVDA" then some 875.28
  else if symbol = "META" then some 504.20
  else if symbol = "NFLX" then some 489.33
  else if symbol = "BTC" then some 119051
  else if symbol = "ETH" then some 4399.16
  else if symbol = "XRP" then some 3.18
  else none

/-- `getCurrentPrice`: `mockPrices[symbol] || 100`. A found value of `0` would
be falsy and also fall back to 100 (the table has no such entry). The `type`
argument is accepted and ignored, as in the source. -/
def getCurrentPrice (symbol : String) (ty : AssetType) : ℚ :=
  match mockPrices symbol with
  | some p => if p = 0 then 100 else p
  | none => 100

/-- The current price stored by `addToPortfolio`:
`asset.price || await getCurrentPrice(asset.symbol, asset.type)` — a missing
or zero (falsy) search price falls back to the lookup. -/
def resolvedCurrentPrice (asset : SearchResult) : ℚ :=
  match asset.price with
  | some p => if p = 0 then getCurrentPrice asset.symbol asset.type else p
  | none => getCurrentPrice asset.symbol asset.type

/-- `addToPortfolio`: builds the new item (identifier
`Date.now().toString()`, modelled by the explicit timestamp `now`) and appends
it: `setPortfolio(prev => [...prev, newItem])`. -/
def addToPortfolio (prev : List PortfolioItem) (now : ℕ) (asset : SearchResult)
    (quantity purchasePrice : ℚ) : List PortfolioItem :=
  prev ++ [{ id := toString now
             symbol := asset.symbol
             name := asset.name
             type := asset.type
             quantity := quantity
             purchasePrice := purchasePrice
             currentPrice := resolvedCurrentPrice asset }]

/-- `removeFromPortfolio`: `setPortfolio(prev => prev.filter(item => item.id !== id))`. -/
def removeFromPortfolio (prev : List PortfolioItem) (id : String) : List PortfolioItem :=
  prev.filter fun item => item.id != id

/-- Toast shown by `saveEdit`. -/
inductive EditToast where
  | invalidInput
  | portfolioUpdated
deriving DecidableEq, Repr

/-- `saveEdit`: parses the two form fields (`none` models `NaN` from
`parseFloat`), rejects non-numeric or non-positive input with the
"Invalid Input" toast and no state change, and otherwise replaces the
`quantity` and `purchasePrice` of the item whose `id` matches the item being
edited: `prev.map(item => item.id === editingItem.id ? { ...item, quantity,
purchasePrice: price } : item)`. -/
def saveEdit (prev : List PortfolioItem) (editingId : String)
    (parsedQuantity parsedPrice : Option ℚ) : List PortfolioItem × EditToast :=
  match parsedQuantity, parsedPrice with
  | some quantity, some price =>
      if quantity ≤ 0 ∨ price ≤ 0 then (prev, .invalidInput)
      else
        (prev.map fun item =>
          if item.id == editingId then
            { item with quantity := quantity, purchasePrice := price }
          else item,
         .portfolioUpdated)
  | _, _ => (prev, .invalidInput)

/-- C3: whenever either parsed edit field is non-numeric (`NaN`) or not
strictly positive, `saveEdit` shows the "Invalid Input" toast and returns the
collection completely unchanged — in particular the edited holding keeps its
prior quantity and purchase price. -/
theorem c3_invalid_edit_rejected (prev : List PortfolioItem) (editingId : String)
    (parsedQuantity parsedPrice : Option ℚ)
    (h : parsedQuantity = none ∨ parsedPrice = none ∨
      (∃ q, parsedQuantity = some q ∧ q ≤ 0) ∨
      (∃ p, parsedPrice = some p ∧ p ≤ 0)) :
    saveEdit prev editingId parsedQuantity parsedPrice = (prev, .invalidInput) := by
  match parsedQuantity, parsedPrice with
  | none, _ => rfl
  | some q, none => rfl
  | some q, some p =>
      rcases h with h | h | ⟨q', hq, hq0⟩ | ⟨p', hp, hp0⟩
      · exact absurd h (by simp)
      · exact absurd h (by simp)
      · cases Option.some.inj hq
        simp only [saveEdit, if_pos (Or.inl hq0)]
      · cases Option.some.inj hp
        simp only [saveEdit, if_pos (Or.inr hp0)]

/-- Witness for C3: editing with quantity 0 and price 5 is rejected and the
one-element collection is unchanged. -/
theorem c3_invalid_edit_rejected_witness :
    saveEdit [aaplExample] "1" (some 0) (some 5) = ([aaplExample], .invalidInput) :=
  c3_invalid_edit_rejected [aaplExample] "1" (some 0) (some 5)
    (Or.inr (Or.inr (Or.inl ⟨0, rfl, le_refl 0⟩)))

/-- Frame condition for one position of the list after a valid edit: the
identifier, symbol, name, asset class and current price are untouched; the
matching item receives exactly the new quantity and price; a non-matching item
is entirely unchanged. -/
def editFrameOk (editingId : String) (q p : ℚ) (old updatedItem : PortfolioItem) : Prop :=
  updatedItem.id = old.id ∧
  updatedItem.symbol = old.symbol ∧
  updatedItem.name = old.name ∧
  updatedItem.type = old.type ∧
  updatedItem.currentPrice = old.currentPrice ∧
  (old.id = editingId → updatedItem.quantity = q ∧ updatedItem.purchasePrice = p) ∧
  (old.id ≠ editingId → updatedItem = old)

/-- C8: a valid edit (positive parsed quantity and price) updates only the
`quantity` and `purchasePrice` of the holding with the matching identifier;
every identifier, symbol, name, asset class and current price is preserved,
non-matching holdings are entirely unchanged, and the length and order of the
list are preserved position by position. -/
theorem c8_valid_edit_frame (prev : List PortfolioItem) (editingId : String)
    (q p : ℚ) (hq : 0 < q) (hp : 0 < p) :
    (saveEdit prev editingId (some q) (some p)).2 = .portfolioUpdated ∧
    (saveEdit prev editingId (some q) (some p)).1.length = prev.length ∧
    ∀ i : Fin prev.length,
      ∃ hi : i.val < (saveEdit prev editingId (some q) (some p)).1.length,
        editFrameOk editingId q p (prev.get i)
          ((saveEdit prev editingId (some q) (some p)).1.get ⟨i.val, hi⟩) := by
  have hbranch : saveEdit prev editingId (some q) (some p) =
      (prev.map fun item =>
        if item.id == editingId then
          { item with quantity := q, purchasePrice := p }
        else item,
       .portfolioUpdated) := by
    simp only [saveEdit]
    rw [if_neg]
    push_neg
    exact ⟨hq, hp⟩
  rw [hbranch]
  refine ⟨rfl, List.length_map _ _, fun i => ?_⟩
  refine ⟨by simpa using i.isLt, ?_⟩
  have hmap : (prev.map fun item =>
      if item.id == editingId then
        { item with quantity := q, purchasePrice := p }
      else item).get ⟨i.val, by simpa using i.isLt⟩ =
      (fun item => if item.id == editingId then
        { item with quantity := q, purchasePrice := p }
      else item) (prev.get i) := by
    simp [List.get_eq_getElem]
  rw [hmap]
  by_cases h : (prev.get i).id = editingId <;>
    simp only [List.get_eq_getElem] at h <;>
    simp [editFrameOk, h]

/-- Witness for C8: a valid edit (quantity 2, price 3) on a one-element
collection. -/
theorem c8_valid_edit_frame_witness :
    0 < (2 : ℚ) ∧ 0 < (3 : ℚ) ∧
    ((saveEdit [aaplExample] "1" (some 2) (some 3)).2 = .portfolioUpdated ∧
     (saveEdit [aaplExample] "1" (some 2) (some 3)).1.length = [aaplExample].length ∧
     ∀ i : Fin [aaplExample].length,
       ∃ hi : i.val < (saveEdit [aaplExample] "1" (some 2) (some 3)).1.length,
         editFrameOk "1" 2 3 ([aaplExample].get i)
           ((saveEdit [aaplExample] "1" (some 2) (some 3)).1.get ⟨i.val, hi⟩)) :=
  ⟨by norm_num, by norm_num,
   c8_valid_edit_frame [aaplExample] "1" 2 3 (by norm_num) (by norm_num)⟩

/-- The identifiers present in a collection. -/
def portfolioIds (portfolio : List PortfolioItem) : List String :=
  portfolio.map PortfolioItem.id

/-- A search result used for concrete inputs. -/
def sampleAsset : SearchResult :=
  { symbol := "AAPL"
    name := "Apple Inc."
    type := .stock
    price := some 185.92 }

/-- A holding whose identifier collides with the timestamp string "5". -/
def collisionItem : PortfolioItem :=
  { id := "5"
    symbol := "GOOGL"
    name := "Alphabet Inc."
    type := .stock
    quantity := 1
    purchasePrice := 1
    currentPrice := 1 }

/-- Counterexample to C4 as stated: if the timestamp-derived identifier of the
added holding already occurs in the collection (`Date.now()` is not guaranteed
fresh), removing by that identifier also deletes the pre-existing holding, so
add-then-remove does not restore the prior state. -/
theorem c4_add_remove_counterexample :
    removeFromPortfolio (addToPortfolio [collisionItem] 5 sampleAsset 1 1) "5" ≠
      [collisionItem] := by decide

/-- C4 (amended): provided the generated identifier (the decimal string of the
add timestamp) does not already occur in the collection, adding a holding and
then removing it by its identifier restores exactly the prior list, order
included. -/
theorem c4_add_remove_roundtrip (prev : List PortfolioItem) (now : ℕ)
    (asset : SearchResult) (quantity purchasePrice : ℚ)
    (hfresh : toString now ∉ portfolioIds prev) :
    removeFromPortfolio (addToPortfolio prev now asset quantity purchasePrice)
      (toString now) = prev := by
  unfold removeFromPortfolio addToPortfolio
  rw [List.filter_append]
  have h1 : (prev.filter fun item => item.id != toString now) = prev := by
    apply List.filter_eq_self.mpr
    intro a ha
    simp only [bne_iff_ne, ne_eq, decide_eq_true_eq]
    intro hcontra
    exact hfresh (hcontra ▸ List.mem_map_of_mem PortfolioItem.id ha)
  rw [h1]
  simp

/-- Witness for the amended C4 on a collection whose single identifier differs
from the generated one. -/
theorem c4_add_remove_roundtrip_witness :
    toString 7 ∉ portfolioIds [collisionItem] ∧
    removeFromPortfolio (addToPortfolio [collisionItem] 7 sampleAsset 2 3)
      (toString 7) = [collisionItem] :=
  ⟨by decide, c4_add_remove_roundtrip [collisionItem] 7 sampleAsset 2 3 (by decide)⟩

/-! ## Operation sequences and identifier uniqueness -/

/-- One user-facing mutation of the portfolio store: `addToPortfolio`,
`saveEdit` or `removeFromPortfolio`. -/
inductive PortfolioOp where
  | add (now : ℕ) (asset : SearchResult) (quantity purchasePrice : ℚ)
  | edit (editingId : String) (parsedQuantity parsedPrice : Option ℚ)
  | remove (id : String)

/-- Apply one mutation to the collection. -/
def applyOp (portfolio : List PortfolioItem) : PortfolioOp → List PortfolioItem
  | .add now asset quantity purchasePrice =>
      addToPortfolio portfolio now asset quantity purchasePrice
  | .edit editingId parsedQuantity parsedPrice =>
      (saveEdit portfolio editingId parsedQuantity parsedPrice).1
  | .remove id => removeFromPortfolio portfolio id

/-- Apply a sequence of mutations, left to right. -/
def runOps (portfolio : List PortfolioItem) (ops : List PortfolioOp) : List PortfolioItem :=
  ops.foldl applyOp portfolio

/-- The identifiers the add operations of a sequence will generate
(`Date.now().toString()` for each add's timestamp). -/
def addIds : List PortfolioOp → List String
  | [] => []
  | .add now _ _ _ :: ops => toString now :: addIds ops
  | .edit _ _ _ :: ops => addIds ops
  | .remove _ :: ops => addIds ops

/-- `saveEdit` never changes the identifiers of the collection. -/
theorem portfolioIds_saveEdit (prev : List PortfolioItem) (editingId : String)
    (parsedQuantity parsedPrice : Option ℚ) :
    portfolioIds (saveEdit prev editingId parsedQuantity parsedPrice).1 =
      portfolioIds prev := by
  rcases parsedQuantity with _ | q <;> rcases parsedPrice with _ | p
  · rfl
  · rfl
  · rfl
  · simp only [saveEdit]
    split
    · rfl
    · simp only [portfolioIds, List.map_map]
      refine List.map_congr_left fun a _ => ?_
      simp only [Function.comp_apply]
      split <;> rfl

/-- `removeFromPortfolio` only deletes identifiers. -/
theorem portfolioIds_remove_sublist (prev : List PortfolioItem) (id : String) :
    (portfolioIds (removeFromPortfolio prev id)).Sublist (portfolioIds prev) :=
  List.Sublist.map PortfolioItem.id (List.filter_sublist prev)

/-- `addToPortfolio` appends exactly the timestamp-derived identifier. -/
theorem portfolioIds_add (prev : List PortfolioItem) (now : ℕ) (asset : SearchResult)
    (quantity purchasePrice : ℚ) :
    portfolioIds (addToPortfolio prev now asset quantity purchasePrice) =
      portfolioIds prev ++ [toString now] := by
  simp [portfolioIds, addToPortfolio]

/-- Distinctness of the current identifiers together with the pending add
identifiers is preserved by any sequence of operations. -/
theorem nodup_portfolioIds_runOps (ops : List PortfolioOp) :
    ∀ prev : List PortfolioItem,
      (portfolioIds prev ++ addIds ops).Nodup →
      (portfolioIds (runOps prev ops)).Nodup := by
  induction ops with
  | nil =>
      intro prev h
      simpa [runOps, addIds] using h
  | cons op ops ih =>
      intro prev h
      show (portfolioIds ((op :: ops).foldl applyOp prev)).Nodup
      rw [List.foldl_cons]
      refine ih (applyOp prev op) ?_
      cases op with
      | add now asset quantity purchasePrice =>
          rw [applyOp, portfolioIds_add, List.append_assoc, List.singleton_append]
          exact h
      | edit editingId parsedQuantity parsedPrice =>
          rw [applyOp, portfolioIds_saveEdit]
          exact h
      | remove id =>
          exact ((portfolioIds_remove_sublist prev id).append
            (List.Sublist.refl (addIds ops))).nodup h

/-- Counterexample to C7 as stated: two add operations in the same millisecond
(`Date.now()` returns the same value) generate the same identifier, so the
collection ends with duplicate identifiers even when it started empty. -/
theorem c7_identifier_uniqueness_counterexample :
    ¬ (portfolioIds (runOps []
        [.add 5 sampleAsset 1 1, .add 5 sampleAsset 1 1])).Nodup := by decide

/-- C7 (amended): starting from a collection with pairwise-distinct
identifiers, any sequence of add, edit and remove operations preserves
identifier uniqueness, provided the timestamp-derived identifiers generated by
the adds are pairwise distinct and do not already occur in the collection
(true whenever each add happens in a fresh millisecond). -/
theorem c7_identifier_uniqueness (prev : List PortfolioItem) (ops : List PortfolioOp)
    (h1 : (portfolioIds prev).Nodup) (h2 : (addIds ops).Nodup)
    (h3 : ∀ s ∈ addIds ops, s ∉ portfolioIds prev) :
    (portfolioIds (runOps prev ops)).Nodup := by
  refine nodup_portfolioIds_runOps ops prev ?_
  rw [List.nodup_append]
  exact ⟨h1, h2, fun a ha hb => h3 a hb ha⟩

/-- Witness for the amended C7: two adds with distinct timestamps, an edit and
a remove, starting from a one-element collection. -/
theorem c7_identifier_uniqueness_witness :
    (portfolioIds [collisionItem]).Nodup ∧
    (addIds [.add 7 sampleAsset 1 1, .edit "5" (some 2) (some 3),
      .add 8 sampleAsset 1 1, .remove "7"]).Nodup ∧
    (∀ s ∈ addIds [.add 7 sampleAsset 1 1, .edit "5" (some 2) (some 3),
      .add 8 sampleAsset 1 1, .remove "7"], s ∉ portfolioIds [collisionItem]) ∧
    (portfolioIds (runOps [collisionItem]
      [.add 7 sampleAsset 1 1, .edit "5" (some 2) (some 3),
       .add 8 sampleAsset 1 1, .remove "7"])).Nodup :=
  ⟨by decide, by decide, by decide,
   c7_identifier_uniqueness [collisionItem]
     [.add 7 sampleAsset 1 1, .edit "5" (some 2) (some 3),
      .add 8 sampleAsset 1 1, .remove "7"]
     (by decide) (by decide) (by decide)⟩

set_option maxHeartbeats 1000000 in
/-- Every value of the price lookup is strictly positive: a symbol in the mock
table yields its (positive) table price, any other symbol yields the default
constant 100. -/
theorem getCurrentPrice_pos (symbol : String) (ty : AssetType) :
    0 < getCurrentPrice symbol ty := by
  unfold getCurrentPrice
  cases heq : mockPrices symbol with
  | none => norm_num
  | some v =>
      unfold mockPrices at heq
      split_ifs at heq <;> cases heq <;> norm_num

/-- C10: assuming the selected search result carries no negative price (search
prices are market quotes, `regularMarketPrice || 0`), the holding created by
`addToPortfolio` has a strictly positive current price.  Moreover the stored
price is characterised exactly as in the source: a missing price or a price of
exactly 0 (both falsy) is silently replaced by the per-symbol lookup (itself
positive, defaulting to 100), while any nonzero price is stored as-is. -/
theorem c10_created_holding_positive_price (prev : List PortfolioItem) (now : ℕ)
    (asset : SearchResult) (quantity purchasePrice : ℚ)
    (hprice : ∀ x ∈ asset.price, 0 ≤ x) :
    ∃ created : PortfolioItem,
      addToPortfolio prev now asset quantity purchasePrice = prev ++ [created] ∧
      0 < created.currentPrice ∧
      ((asset.price = none ∨ asset.price = some 0) →
        created.currentPrice = getCurrentPrice asset.symbol asset.type) ∧
      (∀ p0, asset.price = some p0 → p0 ≠ 0 → created.currentPrice = p0) := by
  refine ⟨_, rfl, ?_, ?_, ?_⟩
  · show 0 < resolvedCurrentPrice asset
    unfold resolvedCurrentPrice
    cases hp : asset.price with
    | none => exact getCurrentPrice_pos asset.symbol asset.type
    | some x =>
        show 0 < if x = 0 then getCurrentPrice asset.symbol asset.type else x
        by_cases hx : x = 0
        · rw [if_pos hx]
          exact getCurrentPrice_pos asset.symbol asset.type
        · rw [if_neg hx]
          exact lt_of_le_of_ne (hprice x (by rw [hp]; rfl)) (Ne.symm hx)
  · show asset.price = none ∨ asset.price = some 0 →
      resolvedCurrentPrice asset = getCurrentPrice asset.symbol asset.type
    rintro (hp | hp) <;> simp [resolvedCurrentPrice, hp]
  · show ∀ p0, asset.price = some p0 → p0 ≠ 0 →
      resolvedCurrentPrice asset = p0
    intro p0 hp hp0
    simp [resolvedCurrentPrice, hp, hp0]

/-- Witness for C10 at a search result carrying the (nonnegative) price
185.92. -/
theorem c10_created_holding_positive_price_witness :
    (∀ x ∈ sampleAsset.price, 0 ≤ x) ∧
    ∃ created : PortfolioItem,
      addToPortfolio [] 7 sampleAsset 2 3 = [] ++ [created] ∧
      0 < created.currentPrice ∧
      ((sampleAsset.price = none ∨ sampleAsset.price = some 0) →
        created.currentPrice = getCurrentPrice sampleAsset.symbol sampleAsset.type) ∧
      (∀ p0, sampleAsset.price = some p0 → p0 ≠ 0 → created.currentPrice = p0) :=
  ⟨by intro x hx
      simp only [sampleAsset, Option.mem_def, Option.some.injEq] at hx
      rw [← hx]
      norm_num,
   c10_created_holding_positive_price [] 7 sampleAsset 2 3
     (by intro x hx
         simp only [sampleAsset, Option.mem_def, Option.some.injEq] at hx
         rw [← hx]
         norm_num)⟩

/-! ## Symbol search (`SearchBar.tsx`) -/

/-- A CoinGecko coin entry as consumed by `searchAssets` (only `symbol` and
`name` are read). -/
structure CoinInfo where
  symbol : String
  name : String
deriving DecidableEq, Repr

/-- The mapping applied to each CoinGecko coin:
`{ symbol: coin.symbol.toUpperCase(), name: coin.name, type: 'crypto' }`
(no price field). -/
def cryptoToSearchResult (coin : CoinInfo) : SearchResult :=
  { symbol := coin.symbol.toUpper
    name := coin.name
    type := .crypto
    price := none }

/-- The crypto contribution of `searchAssets`:
`cryptoData.coins?.slice(0, 5).map(...) || []` when the response was ok, and
the empty list when the fetch failed or the response was not ok. -/
def cryptoResults (cryptoResponse : Option (List CoinInfo)) : List SearchResult :=
  match cryptoResponse with
  | some coins => (coins.take 5).map cryptoToSearchResult
  | none => []

/-- `searchAssets` from `SearchBar.tsx`.  The two network fetches are
environment inputs: `stockResults` is what `searchStocks` returned (it already
degrades to `[]` on its own failure, and every element it builds has
`type: 'stock'`); `cryptoResponse` is the CoinGecko coin list, `none` when the
fetch threw or the response was not ok.  Queries shorter than 2 characters
return `[]` at once; the stock list is capped at 5 (`slice(0, 5)`), the coin
list at 5, and the merged list at 10 (`results.slice(0, 10)`). -/
def searchAssets (query : String) (stockResults : List SearchResult)
    (cryptoResponse : Option (List CoinInfo)) : List SearchResult :=
  if query.length < 2 then []
  else (stockResults.take 5 ++ cryptoResults cryptoResponse).take 10

/-- C9: for every query and every pair of fetched result lists, the merged
search result list has at most 10 elements and at most 5 per asset class
(given that the stock fetch only produces stock-typed results, as
`searchStocks` does), and any query shorter than 2 characters yields the empty
list. -/
theorem c9_search_bounds (query : String) (stockResults : List SearchResult)
    (cryptoResponse : Option (List CoinInfo))
    (hstock : ∀ r ∈ stockResults, r.type = .stock) :
    (searchAssets query stockResults cryptoResponse).length ≤ 10 ∧
    ((searchAssets query stockResults cryptoResponse).filter
      fun r => r.type == .stock).length ≤ 5 ∧
    ((searchAssets query stockResults cryptoResponse).filter
      fun r => r.type == .crypto).length ≤ 5 ∧
    (query.length < 2 → searchAssets query stockResults cryptoResponse = []) := by
  by_cases hq : query.length < 2
  · simp [searchAssets, hq]
  · have hdef : searchAssets query stockResults cryptoResponse =
        (stockResults.take 5 ++ cryptoResults cryptoResponse).take 10 := by
      rw [searchAssets, if_neg hq]
    have hcryptoLen : (cryptoResults cryptoResponse).length ≤ 5 := by
      cases cryptoResponse with
      | none => simp [cryptoResults]
      | some coins => simpa [cryptoResults] using List.length_take_le 5 coins
    have hcryptoType : ∀ r ∈ cryptoResults cryptoResponse, r.type = .crypto := by
      cases cryptoResponse with
      | none => simp [cryptoResults]
      | some coins =>
          intro r hr
          simp only [cryptoResults] at hr
          obtain ⟨coin, _, rfl⟩ := List.mem_map.mp hr
          rfl
    have hstockType : ∀ r ∈ stockResults.take 5, r.type = .stock :=
      fun r hr => hstock r (List.take_subset 5 stockResults hr)
    refine ⟨?_, ?_, ?_, fun h => absurd h hq⟩
    · rw [hdef]
      exact List.length_take_le 10 _
    · rw [hdef]
      have hsub : (((stockResults.take 5 ++ cryptoResults cryptoResponse).take 10).filter
          fun r => r.type == .stock).Sublist
          ((stockResults.take 5 ++ cryptoResults cryptoResponse).filter
            fun r => r.type == .stock) :=
        List.Sublist.filter _ (List.take_sublist 10 _)
      refine le_trans hsub.length_le ?_
      rw [List.filter_append, List.length_append]
      have hnil : ((cryptoResults cryptoResponse).filter
          fun r => r.type == .stock) = [] := by
        rw [List.filter_eq_nil_iff]
        intro r hr
        rw [hcryptoType r hr]
        decide
      rw [hnil]
      simpa using le_trans (List.length_filter_le _ _) (List.length_take_le 5 _)
    · rw [hdef]
      have hsub : (((stockResults.take 5 ++ cryptoResults cryptoResponse).take 10).filter
          fun r => r.type == .crypto).Sublist
          ((stockResults.take 5 ++ cryptoResults cryptoResponse).filter
            fun r => r.type == .crypto) :=
        List.Sublist.filter _ (List.take_sublist 10 _)
      refine le_trans hsub.length_le ?_
      rw [List.filter_append, List.length_append]
      have hnil : ((stockResults.take 5).filter
          fun r => r.type == .crypto) = [] := by
        rw [List.filter_eq_nil_iff]
        intro r hr
        rw [hstockType r hr]
        decide
      rw [hnil]
      simpa using le_trans (List.length_filter_le _ _) hcryptoLen

/-- Witness for C9 on the query "bt" with one stock result and one coin. -/
theorem c9_search_bounds_witness :
    (∀ r ∈ [sampleAsset], r.type = .stock) ∧
    ((searchAssets "bt" [sampleAsset] (some [⟨"btc", "Bitcoin"⟩])).length ≤ 10 ∧
     ((searchAssets "bt" [sampleAsset] (some [⟨"btc", "Bitcoin"⟩])).filter
       fun r => r.type == .stock).length ≤ 5 ∧
     ((searchAssets "bt" [sampleAsset] (some [⟨"btc", "Bitcoin"⟩])).filter
       fun r => r.type == .crypto).length ≤ 5 ∧
     ("bt".length < 2 → searchAssets "bt" [sampleAsset] (some [⟨"btc", "Bitcoin"⟩]) = [])) :=
  ⟨by decide,
   c9_search_bounds "bt" [sampleAsset] (some [⟨"btc", "Bitcoin"⟩]) (by decide)⟩

/-! ## Persistence (`localStorage` save and load effects) -/

/-- A JSON value, the common currency of `JSON.stringify` and `JSON.parse`. -/
inductive Json where
  | jnull
  | jbool (b : Bool)
  | jnum (q : ℚ)
  | jstr (s : String)
  | jarr (elements : List Json)
  | jobj (fields : List (String × Json))

/-- Serialization of the asset class literal. -/
def encodeAssetType : AssetType → String
  | .stock => "stock"
  | .crypto => "crypto"

/-- Reading an asset class back from its serialized literal. -/
def decodeAssetType (s : String) : Option AssetType :=
  if s = "stock" then some .stock
  else if s = "crypto" then some .crypto
  else none

/-- `JSON.stringify` of one holding: an object with the seven fields of the
persistent layout (id, symbol, name, type, quantity, purchasePrice,
currentPrice). -/
def encodeItem (item : PortfolioItem) : Json :=
  .jobj [("id", .jstr item.id),
         ("symbol", .jstr item.symbol),
         ("name", .jstr item.name),
         ("type", .jstr (encodeAssetType item.type)),
         ("quantity", .jnum item.quantity),
         ("purchasePrice", .jnum item.purchasePrice),
         ("currentPrice", .jnum item.currentPrice)]

/-- Reading one field of a parsed JSON object. -/
def jsonField (fields : List (String × Json)) (key : String) : Option Json :=
  fields.lookup key

/-- A parsed JSON string value. -/
def asString : Json → Option String
  | .jstr s => some s
  | _ => none

/-- A parsed JSON number value. -/
def asNumber : Json → Option ℚ
  | .jnum q => some q
  | _ => none

/-- Structural read of one holding out of the parsed JSON (the source performs
this read implicitly: `JSON.parse` output is stored as the portfolio without
validation, so a holding is exactly an object carrying these seven fields). -/
def decodeItem : Json → Option PortfolioItem
  | .jobj fields => do
      let id ← (jsonField fields "id").bind asString
      let symbol ← (jsonField fields "symbol").bind asString
      let name ← (jsonField fields "name").bind asString
      let ty ← ((jsonField fields "type").bind asString).bind decodeAssetType
      let quantity ← (jsonField fields "quantity").bind asNumber
      let purchasePrice ← (jsonField fields "purchasePrice").bind asNumber
      let currentPrice ← (jsonField fields "currentPrice").bind asNumber
      pure { id := id, symbol := symbol, name := name, type := ty,
             quantity := quantity, purchasePrice := purchasePrice,
             currentPrice := currentPrice }
  | _ => none

/-- `JSON.stringify(portfolio)`: the serialized collection is the array of the
serialized holdings, in order. -/
def encodePortfolio (portfolio : List PortfolioItem) : Json :=
  .jarr (portfolio.map encodeItem)

/-- Structural read of the whole collection out of the parsed JSON. -/
def decodePortfolio : Json → Option (List PortfolioItem)
  | .jarr elements => elements.mapM decodeItem
  | _ => none

/-- Decoding inverts encoding on a single holding. -/
theorem decodeItem_encodeItem (item : PortfolioItem) :
    decodeItem (encodeItem item) = some item := by
  cases item with
  | mk id symbol name ty quantity purchasePrice currentPrice => cases ty <;> rfl

/-- C5: persisting the collection and loading it back is the identity — the
serialized array decodes to exactly the original list, for every collection. -/
theorem c5_persist_reload_roundtrip (portfolio : List PortfolioItem) :
    decodePortfolio (encodePortfolio portfolio) = some portfolio := by
  induction portfolio with
  | nil => rfl
  | cons item rest ih =>
      simp only [encodePortfolio, decodePortfolio, List.map_cons, List.mapM_cons,
        decodeItem_encodeItem] at ih ⊢
      rw [ih]
      rfl

/-- The load effect run on mount: `localStorage.getItem('portfolio')` is the
`stored` input (`none` when the slot is absent), `parseJson` stands for
`JSON.parse` (`none` when it throws).  The state starts as `[]`; a missing
slot leaves it untouched, a parse failure is caught and logged
(`console.error`) so the state also stays `[]`; the Boolean records whether
the error was logged.  No toast is shown on this path in the source, so a
failure is never surfaced to the user, and the function is total: no
exception escapes.  On success the parsed value is stored unvalidated in the
source; here the structural read supplies the list (a successfully parsed
value of a different shape lies outside the embedded state type). -/
def loadPortfolio (parseJson : String → Option Json) (stored : Option String) :
    List PortfolioItem × Bool :=
  match stored with
  | none => ([], false)
  | some s =>
      match parseJson s with
      | none => ([], true)
      | some j => ((decodePortfolio j).getD [], false)

/-- C6: whenever parsing the persisted string fails, the store falls back to
the empty list with the error logged (first conjunct); a missing slot also
leaves the store empty, with nothing logged (second conjunct).  In both cases
no failure reaches the user: the load path produces a value, never an
exception or a toast. -/
theorem c6_load_failure_falls_back :
    (∀ (parseJson : String → Option Json) (s : String), parseJson s = none →
      loadPortfolio parseJson (some s) = ([], true)) ∧
    (∀ parseJson : String → Option Json, loadPortfolio parseJson none = ([], false)) := by
  constructor
  · intro parseJson s h
    simp [loadPortfolio, h]
  · intro parseJson
    rfl

/-- Witness for C6 with a parser that rejects its input. -/
theorem c6_load_failure_falls_back_witness :
    (fun _ : String => (none : Option Json)) "not json" = none ∧
    loadPortfolio (fun _ => none) (some "not json") = ([], true) :=
  ⟨rfl, c6_load_failure_falls_back.1 (fun _ => none) "not json" rfl⟩
